import Mathlib

/-! Verification of the job-alert aggregation pipeline
(`src/main.py`, `src/utils.py`, `src/telegram_bot.py`, `src/scrapers/base.py`).

Python strings are modelled by `String` (Lean `String.length` counts Unicode
scalar values, exactly like Python `len`), optional values by `Option`, and
`datetime` values by a wall-clock integer plus an optional UTC offset.
-/

set_option maxRecDepth 100000

namespace JobAlerts

/-! Python string primitives -/

/-- Python `str.lower()` on the code's ASCII data: lowercase each character. -/
def pyLower (s : String) : List Char :=
  s.data.map Char.toLower

/-- Python `str.strip()`: drop leading and trailing whitespace. -/
def pyStrip (l : List Char) : List Char :=
  ((l.dropWhile Char.isWhitespace).reverse.dropWhile Char.isWhitespace).reverse

/-- Does `needle` occur as a contiguous run starting at some position of
`hay`?  (Python `needle in hay` on strings.) -/
def isInfixChars (needle : List Char) : List Char → Bool
  | [] => needle.isEmpty
  | h :: t => needle.isPrefixOf (h :: t) || isInfixChars needle t

/-- Python `needle in hay` on strings: substring containment. -/
def isSubstr (needle : String) (hay : List Char) : Bool :=
  isInfixChars needle.data hay

/-- Python `x or ""` for an optional string. -/
def orEmpty : Option String → String
  | none => ""
  | some s => s

/-- Python truthiness test `if not location:` for an `Optional[str]`:
`None` and `""` are falsy. -/
def pyFalsy : Option String → Bool
  | none => true
  | some s => s.isEmpty

/-! Data model (`src/scrapers/base.py`, dataclass `Job`) -/

/-- A Python `datetime`: naive wall-clock encoded as seconds since
1970-01-01 00:00:00 (as read on the wall), plus the UTC offset of its
`tzinfo`, `none` for a naive datetime.  Sub-second precision is irrelevant
to every claim and omitted. -/
structure PyDateTime where
  wall : Int
  tzinfo : Option Int
deriving DecidableEq, Repr

/-- The `Job` dataclass.  `title`, `company`, `url`, `source` are `str`
fields; `location` and `salary` may be `None` in practice (the code guards
them with `or ""` / truthiness tests), `description` defaults to `""`,
`posted_date` defaults to `None`. -/
structure Job where
  title : String
  company : String
  location : Option String
  url : String
  source : String
  description : String := ""
  posted_date : Option PyDateTime := none
  salary : Option String := none
deriving DecidableEq, Repr

/-- Model of `hashlib.md5(self.url.encode()).hexdigest()` from `Job.id`:
a pure deterministic function of the url.  No claim depends on the digest
values themselves, only on the fact that the identity is determined by the
url, so the url itself stands in for its digest. -/
def md5_hex (s : String) : String := s

/-- Model of `Job.id`: the derived identity, a deterministic function of `url`. -/
def job_id (j : Job) : String := md5_hex j.url

/-! Keyword tables (`src/utils.py`) -/

/-- Model of `EUROPEAN_COUNTRIES` from `src/utils.py` (a Python set; iteration order
is irrelevant because only existential matching is performed on it). -/
def EUROPEAN_COUNTRIES : List String := [
  "austria", "osterreich", "vienna", "wien", "salzburg", "graz", "linz",
  "belgium", "belgique", "belgie", "brussels", "bruxelles", "antwerp", "ghent",
  "bulgaria", "sofia", "plovdiv", "varna",
  "croatia", "hrvatska", "zagreb", "split", "rijeka",
  "cyprus", "nicosia", "limassol",
  "czech republic", "czechia", "cesko", "prague", "praha", "brno",
  "denmark", "danmark", "copenhagen", "kobenhavn", "aarhus",
  "estonia", "eesti", "tallinn", "tartu",
  "finland", "suomi", "helsinki", "espoo", "tampere",
  "france", "paris", "lyon", "marseille", "toulouse", "nice", "nantes", "strasbourg", "bordeaux", "lille",
  "germany", "deutschland", "berlin", "munich", "munchen", "frankfurt", "hamburg", "cologne", "koln", "dusseldorf", "stuttgart", "leipzig", "dresden",
  "greece", "hellas", "ellada", "athens", "athina", "thessaloniki",
  "hungary", "magyarorszag", "budapest", "debrecen",
  "ireland", "dublin", "cork", "galway", "limerick",
  "italy", "italia", "italian", "milan", "milano", "rome", "roma", "turin", "torino", "florence", "firenze",
  "naples", "napoli", "bologna", "genoa", "genova", "venice", "venezia", "verona", "padova", "padua",
  "bari", "palermo", "catania", "trieste", "brescia", "parma", "modena", "reggio emilia", "bergamo", "monza",
  "rimini", "perugia", "cagliari", "trento", "bolzano", "lombardia", "lombardy", "lazio", "piemonte", "piedmont",
  "toscana", "tuscany", "emilia-romagna", "emilia romagna", "veneto", "campania", "sicilia", "sicily",
  "puglia", "apulia", "calabria", "sardegna", "sardinia", "liguria", "friuli", "trentino", "marche", "abruzzo", "umbria",
  "latvia", "latvija", "riga",
  "lithuania", "lietuva", "vilnius", "kaunas",
  "luxembourg", "luxemburg",
  "malta", "valletta",
  "netherlands", "nederland", "holland", "amsterdam", "rotterdam", "the hague", "den haag", "utrecht", "eindhoven",
  "poland", "polska", "warsaw", "warszawa", "krakow", "wroclaw", "gdansk", "poznan", "lodz", "katowice",
  "portugal", "lisboa", "lisbon", "porto", "oporto", "braga", "coimbra",
  "romania", "bucuresti", "bucharest", "cluj", "timisoara", "iasi",
  "slovakia", "slovensko", "bratislava", "kosice",
  "slovenia", "slovenija", "ljubljana", "maribor",
  "spain", "espana", "madrid", "barcelona", "valencia", "seville", "sevilla", "bilbao", "malaga", "zaragoza",
  "sweden", "sverige", "stockholm", "gothenburg", "goteborg", "malmo", "uppsala",
  "united kingdom", "uk", "britain", "great britain", "england", "scotland", "wales", "northern ireland",
  "london", "manchester", "birmingham", "leeds", "glasgow", "edinburgh", "liverpool", "bristol", "sheffield", "newcastle", "nottingham", "cambridge", "oxford",
  "switzerland", "schweiz", "suisse", "svizzera", "zurich", "zuerich", "geneva", "geneve", "basel", "bern", "lausanne", "lugano",
  "eu", "europe", "european", "emea"]

/-- Model of `ITALIAN_LOCATIONS` from `src/utils.py`. -/
def ITALIAN_LOCATIONS : List String := [
  "italy", "italia", "italian",
  "milan", "milano", "rome", "roma", "turin", "torino", "florence", "firenze",
  "naples", "napoli", "bologna", "genoa", "genova", "venice", "venezia",
  "verona", "padova", "padua", "bari", "palermo", "catania", "trieste",
  "brescia", "parma", "modena", "reggio emilia", "bergamo", "monza",
  "rimini", "perugia", "cagliari", "trento", "bolzano",
  "lombardia", "lombardy", "lazio", "piemonte", "piedmont", "toscana", "tuscany",
  "emilia-romagna", "emilia romagna", "veneto", "campania", "sicilia", "sicily",
  "puglia", "apulia", "calabria", "sardegna", "sardinia", "liguria",
  "friuli-venezia giulia", "friuli", "trentino-alto adige", "trentino",
  "marche", "abruzzo", "umbria", "basilicata", "molise", "valle d\x27aosta"]

/-- Model of `REMOTE_KEYWORDS` from `src/utils.py`. -/
def REMOTE_KEYWORDS : List String := [
  "remote", "remoto", "anywhere", "worldwide", "global", "work from home", "wfh", "telelavoro", "full remote", "fully remote"]

/-- The local list `non_eu_indicators` inside `is_european_location`. -/
def NON_EU_REMOTE_INDICATORS : List String := [
  "usa", "us ", "united states", "america", "canada", "asia",
  "india", "china", "japan", "australia", "brazil", "mexico",
  "singapore", "hong kong", "israel", "uae", "dubai"]

/-- Model of `NON_EU_INDICATORS` from `src/utils.py`. -/
def NON_EU_INDICATORS : List String := [
  "usa", "u.s.a", "united states", "america", "canada", "india", "china", "japan",
  "australia", "brazil", "mexico", "singapore", "hong kong", "israel", "uae", "dubai",
  "california", "new york", "texas", "florida", "washington", "massachusetts",
  "san francisco", "los angeles", "seattle", "boston", "chicago", "austin", "denver",
  "pittsburgh", "atlanta", "miami", "phoenix", "portland", "san diego", "san jose",
  "raleigh", "charlotte", "nashville", "detroit", "minneapolis", "philadelphia",
  ", ca", ", ny", ", tx", ", fl", ", wa", ", ma", ", il", ", co", ", nc", ", ga",
  ", az", ", or", ", pa", ", oh", ", mi", ", mn", ", va", ", nj", ", md"]

/-! Geo classification (`src/utils.py`) -/

/-- Model of `is_european_location` from `src/utils.py`.  `location` may be `None`
(the `if not location` guard catches both `None` and `""`). -/
def is_european_location (location : Option String) : Bool :=
  if pyFalsy location then false
  else
    let location_lower := pyStrip (pyLower (orEmpty location))
    if EUROPEAN_COUNTRIES.any (fun kw => isSubstr kw location_lower) then true
    else
      let is_remote := REMOTE_KEYWORDS.any (fun kw => isSubstr kw location_lower)
      if is_remote then
        if NON_EU_REMOTE_INDICATORS.any (fun kw => isSubstr kw location_lower) then false
        else true
      else false

/-- Model of `is_italian_location` from `src/utils.py`. -/
def is_italian_location (location : Option String) : Bool :=
  if pyFalsy location then false
  else
    let location_lower := pyStrip (pyLower (orEmpty location))
    ITALIAN_LOCATIONS.any (fun kw => isSubstr kw location_lower)

/-- Model of `is_remote_location` from `src/utils.py`. -/
def is_remote_location (location : Option String) : Bool :=
  if pyFalsy location then false
  else
    let location_lower := pyStrip (pyLower (orEmpty location))
    REMOTE_KEYWORDS.any (fun kw => isSubstr kw location_lower)

/-- Model of `is_non_eu_job` from `src/utils.py`: joins the lowered `title`,
`location`, `company` and `description` with spaces, scans for
`NON_EU_INDICATORS`, then flags a salary containing `$` or `usd`. -/
def is_non_eu_job (job : Job) : Bool :=
  let text_to_check : List Char :=
    pyLower job.title ++ [' '] ++ pyLower (orEmpty job.location) ++ [' '] ++
      pyLower job.company ++ [' '] ++ pyLower job.description
  if NON_EU_INDICATORS.any (fun kw => isSubstr kw text_to_check) then true
  else
    match job.salary with
    | some sal =>
        if sal ≠ "" then
          let salary_lower := pyLower sal
          if isSubstr "$" sal.data || isSubstr "usd" salary_lower then true
          else false
        else false
    | none => false

/-- Model of `filter_european_jobs` from `src/utils.py`: keep a job only when its
location is European (or qualifying remote) and no non-EU indicator fires. -/
def filter_european_jobs : List Job → List Job
  | [] => []
  | job :: rest =>
    if !(is_european_location job.location) then filter_european_jobs rest
    else if is_non_eu_job job then filter_european_jobs rest
    else job :: filter_european_jobs rest

/-- Model of `get_location_priority` from `src/utils.py`. -/
def get_location_priority (job : Job) : Nat :=
  let location := orEmpty job.location
  if is_italian_location (some location) then 0
  else if is_remote_location (some location) then 2
  else 1

/-! Deduplication and seen-filtering (`src/utils.py`) -/

/-- The loop body of `deduplicate_jobs`: walk the list keeping a `seen_urls`
set (modelled as a list of urls — only membership is used). -/
def dedupAux (seen_urls : List String) : List Job → List Job
  | [] => []
  | job :: rest =>
    if job.url ∈ seen_urls then dedupAux seen_urls rest
    else job :: dedupAux (job.url :: seen_urls) rest

/-- Model of `deduplicate_jobs` from `src/utils.py`: first occurrence per url wins. -/
def deduplicate_jobs (jobs : List Job) : List Job :=
  dedupAux [] jobs

/-- Model of `filter_new_jobs` from `src/utils.py`: drop jobs whose id is in
`seen_ids`.  Defined in the repository but never called from `main`. -/
def filter_new_jobs (jobs : List Job) (seen_ids : List String) : List Job :=
  jobs.filter (fun job => !(seen_ids.contains (job_id job)))

/-! Aggregator (`src/main.py`, `collect_jobs`) -/

/-- One adapter's outcome: either the list of records its `search` returned,
or the exception message it raised. -/
abbrev AdapterResult := Except String (List Job)

/-- Model of `collect_jobs` from `src/main.py`: the `try`/`except` loop extends
`all_jobs` with each scraper's results and `continue`s past a scraper whose
`search` raised. -/
def collect_jobs : List AdapterResult → List Job
  | [] => []
  | Except.ok jobs :: rest => jobs ++ collect_jobs rest
  | Except.error _ :: rest => collect_jobs rest

/-! Ranking (`src/main.py`, `main.get_sort_key` and `sorted`) -/

/-- Model of `datetime.timestamp()` on a naive datetime: the wall-clock value shifted
by the runtime's local UTC offset `localOff` (POSIX seconds).  The code calls
`timestamp()` only after stripping `tzinfo`, so only this naive case is
needed. -/
def naive_timestamp (localOff : Int) (d : PyDateTime) : Int :=
  d.wall - localOff

/-- Model of `main.get_sort_key` from `src/main.py`: `(date_priority,
location_priority)` where a dated job contributes the negated timestamp of
its tz-stripped `posted_date` and an undated job contributes `0`. -/
def get_sort_key (localOff : Int) (job : Job) : Int × Nat :=
  let date_priority : Int :=
    match job.posted_date with
    | some pd =>
      -(naive_timestamp localOff (if pd.tzinfo.isSome then { pd with tzinfo := none } else pd))
    | none => 0
  let location := orEmpty job.location
  let location_priority : Nat :=
    if is_italian_location (some location) then 0
    else if is_remote_location (some location) then 2
    else 1
  (date_priority, location_priority)

/-- Python's lexicographic comparison of the `(int, int)` sort keys. -/
def keyLe (a b : Int × Nat) : Prop :=
  a.1 < b.1 ∨ (a.1 = b.1 ∧ a.2 ≤ b.2)

instance : DecidableRel keyLe := fun a b => by
  unfold keyLe
  infer_instance

/-- The total preorder `sorted(..., key=get_sort_key)` sorts by. -/
def jobLe (localOff : Int) (a b : Job) : Prop :=
  keyLe (get_sort_key localOff a) (get_sort_key localOff b)

instance (localOff : Int) : DecidableRel (jobLe localOff) := fun a b => by
  unfold jobLe
  infer_instance

/-- Model of `sorted(european_jobs, key=get_sort_key)` from `src/main.py`.  Python's
`sorted` is a stable sort by the key's order; `List.insertionSort` over the
non-strict key order is stable, and a stable sort by a total preorder is
unique, so the two agree on every input. -/
def sorted_jobs (localOff : Int) (jobs : List Job) : List Job :=
  List.insertionSort (jobLe localOff) jobs

/-! The `main` pipeline (`src/main.py`) -/

/-- Steps 1-4 of `main`: collect, deduplicate, filter to European jobs,
sort.  The resulting list is what is handed to the notification channel. -/
def pipeline (localOff : Int) (adapterResults : List AdapterResult) : List Job :=
  sorted_jobs localOff (filter_european_jobs (deduplicate_jobs (collect_jobs adapterResults)))

/-! A full `main` run (`src/main.py`, `main`) -/

/-- One run of `main` from `src/main.py`, as a function of the adapter
outcomes, the persisted seen-jobs file, and the delivery outcome: the pair
of the record list handed to the notification channel and the seen-jobs
file state after the run.

`main` collects, deduplicates, filters and sorts, then sends.  It imports
only `deduplicate_jobs`, `filter_european_jobs`, `is_italian_location` and
`is_remote_location` from `src/utils.py`; it never calls `load_seen_jobs`,
`filter_new_jobs` or `save_seen_jobs`, so the delivered list does not
depend on the seen-jobs file and the file is left exactly as it was,
whether or not delivery succeeded (on failure `main` merely exits with a
non-zero status). -/
def main_run (localOff : Int) (adapterResults : List AdapterResult)
    (seenFile : SeenFileState) (_deliveryOk : Bool) : List Job × SeenFileState :=
  (pipeline localOff adapterResults, seenFile)

/-! Seen-set store (`src/utils.py`, `load_seen_jobs` / `save_seen_jobs`)

The backing file `data/seen_jobs.json` is modelled by what the run can
observe of it: absent, unreadable (`open`/`read` raises `OSError`), present
but not parseable as JSON (`json.load` raises `JSONDecodeError`), or
parseable with some JSON value as result. -/

/-- A Python value as produced by `json.load`. -/
inductive PyVal where
  | null
  | bool (b : Bool)
  | int (n : Int)
  | str (s : String)
  | list (l : List PyVal)
  | dict (kvs : List (String × PyVal))

/-- The Python exceptions `load_seen_jobs` can let escape. -/
inductive PyExc where
  | attributeError
  | typeError
deriving DecidableEq, Repr

/-- One observable state of the seen-jobs file. -/
inductive SeenFileState where
  | absent
  | unreadable
  | invalidJson
  | jsonContent (v : PyVal)

/-- Python `dict.get(key, default)` on a JSON object. -/
def dictGet (kvs : List (String × PyVal)) (key : String) (default : PyVal) : PyVal :=
  match kvs.find? (fun kv => kv.1 == key) with
  | some kv => kv.2
  | none => default

/-- Is a value usable as a Python set element (hashable)? -/
def hashable : PyVal → Bool
  | .list _ => false
  | .dict _ => false
  | _ => true

/-- Python `set(x)`: iterating a list yields its elements (`TypeError` for an
unhashable element), iterating a string yields its characters, iterating a
dict yields its keys; other values are not iterable (`TypeError`).  The set
is modelled by the list of elements encountered — only emptiness and
membership matter to the claims, so duplicate collapsing is not modelled. -/
def pySet : PyVal → Except PyExc (List PyVal)
  | .list l => if l.all hashable then .ok l else .error .typeError
  | .str s => .ok (s.data.map (fun c => .str (String.mk [c])))
  | .dict kvs => .ok (kvs.map (fun kv => .str kv.1))
  | _ => .error .typeError

/-- Model of `load_seen_jobs` from `src/utils.py`.  The `except` clause catches
exactly `json.JSONDecodeError` and `IOError` (= `OSError`); an exception
raised by `data.get` (a non-dict has no `get`: `AttributeError`) or by
`set(...)` (`TypeError`) propagates to the caller. -/
def load_seen_jobs : SeenFileState → Except PyExc (List PyVal)
  | .absent => .ok []
  | .unreadable => .ok []
  | .invalidJson => .ok []
  | .jsonContent v =>
    match v with
    | .dict kvs => pySet (dictGet kvs "seen_ids" (.list []))
    | _ => .error .attributeError

/-- The JSON object `save_seen_jobs` serializes:
`{"seen_ids": [...], "last_updated": now}`. -/
def save_payload (seen_ids : List String) (now : String) : PyVal :=
  .dict [("seen_ids", .list (seen_ids.map PyVal.str)), ("last_updated", .str now)]

/-- Crash points of `save_seen_jobs`'s file write.  `open(filepath, "w")`
truncates the existing file in place; `json.dump` then streams the payload
into it.  A crash after the `open` but before the dump completes leaves the
file empty or holding a partial payload. -/
inductive SaveCrash where
  | beforeOpen
  | afterOpen
  | completed
deriving DecidableEq, Repr

/-- The seen-jobs file state produced by `save_seen_jobs(seen_ids)` under
each crash point, starting from `prior`.  There is no
write-temp-then-replace: the truncating `open` acts directly on the backing
file, so the `afterOpen` state holds content that is not valid JSON (empty
or a strict prefix of the payload). -/
def save_seen_jobs_file (prior : SeenFileState) (seen_ids : List String) (now : String) :
    SaveCrash → SeenFileState
  | .beforeOpen => prior
  | .afterOpen => .invalidJson
  | .completed => .jsonContent (save_payload seen_ids now)

/-! Delivery loop (`src/telegram_bot.py`, `send_job_alert`)

The Telegram transport is an external collaborator; `outcome i` is the
ok/error result `send_message` obtains for the `i`-th chunk. -/

/-- The chunk-sending loop of `send_job_alert`, instrumented with the list
of chunk indices on which `send_message` is invoked: `success` starts
`True` and is cleared whenever a send fails, but the loop always continues
to the next chunk. -/
def send_loop (outcome : Nat → Bool) : List String → Nat → Bool → List Nat × Bool
  | [], _, success => ([], success)
  | _ :: rest, i, success =>
    let r := outcome i
    let next := send_loop outcome rest (i + 1) (if r then success else false)
    (i :: next.1, next.2)

/-- Model of `send_job_alert`'s behavior on a non-empty chunk list: the attempted
chunk indices in order, and the aggregate success flag it returns. -/
def send_job_alert_chunks (outcome : Nat → Bool) (messages : List String) : List Nat × Bool :=
  send_loop outcome messages 0 true

/-! Message formatting and chunking (`src/telegram_bot.py`) -/

/-- Model of `MAX_MESSAGE_LENGTH` from `src/telegram_bot.py`. -/
def MAX_MESSAGE_LENGTH : Nat := 4096

/-- Python `text.replace(c, rep)` for a single-character pattern `c`. -/
def replace_char (c : Char) (rep : List Char) : List Char → List Char
  | [] => []
  | x :: xs => if x == c then rep ++ replace_char c rep xs else x :: replace_char c rep xs

/-- The `special_chars` list of `_escape_markdown`: underscore, asterisk,
brackets, backtick (written via its code point). -/
def special_chars : List Char := ['_', '*', '[', ']', Char.ofNat 96]

/-- Model of `_escape_markdown` from `src/telegram_bot.py`: sequentially replace each
special character by a backslash followed by the character. -/
def escape_markdown (s : String) : String :=
  if s.isEmpty then ""
  else String.mk (special_chars.foldl (fun text c => replace_char c ['\\', c] text) s.data)

/-- Model of `_escape_url` from `src/telegram_bot.py`: percent-encode parentheses. -/
def escape_url (s : String) : String :=
  if s.isEmpty then ""
  else String.mk (replace_char ')' ['%', '2', '9'] (replace_char '(' ['%', '2', '8'] s.data))

/-- Model of `_format_job` from `src/telegram_bot.py`: one record's self-contained
text block. -/
def format_job (j : Job) : String :=
  let title := escape_markdown j.title
  let company := if j.company.isEmpty then "N/D" else escape_markdown j.company
  let location := if pyFalsy j.location then "N/D" else escape_markdown (orEmpty j.location)
  let url := escape_url j.url
  let salary_line :=
    match j.salary with
    | some s => if s.isEmpty then "💰 Da concordare\n" else "💰 " ++ escape_markdown s ++ "\n"
    | none => "💰 Da concordare\n"
  "💼 *" ++ title ++ "*\n" ++ "🏢 " ++ company ++ "\n" ++ "📍 " ++ location ++ "\n" ++
    salary_line ++ "🔗 [Candidati qui](" ++ url ++ ")\n\n"

/-- The three region buckets of `_group_jobs_by_region`. -/
inductive Region where
  | italy
  | europe
  | remote
deriving DecidableEq, Repr

/-- The bucket `_group_jobs_by_region` appends a job to. -/
def region_of (j : Job) : Region :=
  let location := orEmpty j.location
  if is_italian_location (some location) then .italy
  else if is_remote_location (some location) then .remote
  else .europe

/-- One bucket of `_group_jobs_by_region`: the jobs of that region in input
order (the loop appends in order, so the bucket is an order-preserving
filter). -/
def group_region (r : Region) (jobs : List Job) : List Job :=
  jobs.filter (fun j => region_of j == r)

/-- The continuation header `"🔔 *AI Job Alert (continua)*\n\n"`. -/
def cont_header : String := "🔔 *AI Job Alert (continua)*\n\n"

/-- The `ITALIA` section header. -/
def italia_header : String := "──────────────────\n🇮🇹 *ITALIA*\n──────────────────\n\n"

/-- The `EUROPA` section header. -/
def europa_header : String := "──────────────────\n🇪🇺 *EUROPA*\n──────────────────\n\n"

/-- The `REMOTE` section header. -/
def remote_header : String := "──────────────────\n🌍 *REMOTE*\n──────────────────\n\n"

/-- The footer line with the job count (`str(len(jobs))` is the decimal
numeral, `Nat.repr`). -/
def footer_text (n : Nat) : String :=
  "\n──────────────────\n📊 *Trovati " ++ Nat.repr n ++ " nuovi annunci*"

/-- The mutable state of `_format_jobs_messages`: the completed messages and
the message being built. -/
structure FmtState where
  messages : List String
  current : String

/-- The per-job step of `_format_jobs_messages`: close the current message
and restart with the continuation header when adding this job's block would
push it past `MAX_MESSAGE_LENGTH - 100`. -/
def add_job (st : FmtState) (j : Job) : FmtState :=
  let job_text := format_job j
  if st.current.length + job_text.length > MAX_MESSAGE_LENGTH - 100 then
    ⟨st.messages ++ [st.current], cont_header ++ job_text⟩
  else
    ⟨st.messages, st.current ++ job_text⟩

/-- The per-section step of `_format_jobs_messages`: skip an empty section;
otherwise emit the section header (closing the current message first when it
would push past `MAX_MESSAGE_LENGTH - 200`) and then add the section's jobs. -/
def add_section (st : FmtState) (sectionHeader : String) (section_jobs : List Job) : FmtState :=
  if section_jobs.isEmpty then st
  else
    let st1 :=
      if st.current.length + sectionHeader.length > MAX_MESSAGE_LENGTH - 200 then
        FmtState.mk (st.messages ++ [st.current]) cont_header
      else st
    let st2 := FmtState.mk st1.messages (st1.current ++ sectionHeader)
    section_jobs.foldl add_job st2

/-- Model of `_format_jobs_messages` from `src/telegram_bot.py`, with the
date-dependent `today` string as a parameter. -/
def format_jobs_messages (today : String) (jobs : List Job) : List String :=
  let header := "🔔 *AI Job Alert* | " ++ today ++ "\n\n"
  let st0 : FmtState := ⟨[], header⟩
  let st1 := add_section st0 italia_header (group_region .italy jobs)
  let st2 := add_section st1 europa_header (group_region .europe jobs)
  let st3 := add_section st2 remote_header (group_region .remote jobs)
  let footer := footer_text jobs.length
  let st4 : FmtState :=
    if st3.current.length + footer.length > MAX_MESSAGE_LENGTH then
      ⟨st3.messages ++ [st3.current], footer⟩
    else ⟨st3.messages, st3.current ++ footer⟩
  st4.messages ++ [st4.current]

/-! Piece-instrumented formatter

The formatter only ever appends whole strings to the message being built: a
`Piece` records whether an appended string was header/footer material or one
record's formatted block.  The instrumented formatter runs the identical
control flow over lists of pieces; rendering a chunk's pieces recovers the
source's string chunk exactly. -/

/-- One whole string appended to a message. -/
inductive Piece where
  | text (s : String)
  | block (j : Job)

/-- The string a piece contributes to its message. -/
def piece_str : Piece → String
  | .text s => s
  | .block j => format_job j

/-- Render a chunk from its pieces: the concatenation of their strings. -/
def render : List Piece → String
  | [] => ""
  | p :: ps => piece_str p ++ render ps

/-- The formatter state over pieces. -/
structure PState where
  messages : List (List Piece)
  current : List Piece

/-- Piece-level `add_job`: identical branching, on rendered lengths. -/
def add_job_p (st : PState) (j : Job) : PState :=
  let job_text := format_job j
  if (render st.current).length + job_text.length > MAX_MESSAGE_LENGTH - 100 then
    ⟨st.messages ++ [st.current], [.text cont_header, .block j]⟩
  else
    ⟨st.messages, st.current ++ [.block j]⟩

/-- Piece-level `add_section`: identical branching, on rendered lengths. -/
def add_section_p (st : PState) (sectionHeader : String) (section_jobs : List Job) : PState :=
  if section_jobs.isEmpty then st
  else
    let st1 :=
      if (render st.current).length + sectionHeader.length > MAX_MESSAGE_LENGTH - 200 then
        PState.mk (st.messages ++ [st.current]) [.text cont_header]
      else st
    let st2 := PState.mk st1.messages (st1.current ++ [.text sectionHeader])
    section_jobs.foldl add_job_p st2

/-- Piece-level `_format_jobs_messages`. -/
def format_jobs_pieces (today : String) (jobs : List Job) : List (List Piece) :=
  let header := "🔔 *AI Job Alert* | " ++ today ++ "\n\n"
  let st0 : PState := ⟨[], [.text header]⟩
  let st1 := add_section_p st0 italia_header (group_region .italy jobs)
  let st2 := add_section_p st1 europa_header (group_region .europe jobs)
  let st3 := add_section_p st2 remote_header (group_region .remote jobs)
  let footer := footer_text jobs.length
  let st4 : PState :=
    if (render st3.current).length + footer.length > MAX_MESSAGE_LENGTH then
      ⟨st3.messages ++ [st3.current], [.text footer]⟩
    else ⟨st3.messages, st3.current ++ [.text footer]⟩
  st4.messages ++ [st4.current]

/-- The record blocks a chunk carries, in order. -/
def chunk_blocks (c : List Piece) : List Job :=
  c.filterMap (fun p => match p with | .block j => some j | .text _ => none)

/-! Length-level chunker

Every branch of `_format_jobs_messages` tests only character counts, so the
lengths of the produced messages are a function of the header length, the
per-section block lengths and the footer length alone.  The following
mirror of the chunker over bare lengths is related to the string-level one
by `format_jobs_messages_lengths` and lets facts about concrete inputs with
multi-thousand-character blocks be computed without materializing the
strings. -/

/-- The lengths of `FmtState`: completed message lengths and the current
message's length. -/
def fmt_state_lens (st : FmtState) : List Nat × Nat :=
  (st.messages.map String.length, st.current.length)

/-- Model of `add_job` on lengths. -/
def add_job_len (st : List Nat × Nat) (bl : Nat) : List Nat × Nat :=
  if st.2 + bl > MAX_MESSAGE_LENGTH - 100 then (st.1 ++ [st.2], cont_header.length + bl)
  else (st.1, st.2 + bl)

/-- Model of `add_section` on lengths. -/
def add_section_len (st : List Nat × Nat) (shLen : Nat) (blocks : List Nat) : List Nat × Nat :=
  if blocks.isEmpty then st
  else
    let st1 :=
      if st.2 + shLen > MAX_MESSAGE_LENGTH - 200 then (st.1 ++ [st.2], cont_header.length)
      else st
    let st2 := (st1.1, st1.2 + shLen)
    blocks.foldl add_job_len st2

/-- Model of `_format_jobs_messages` on lengths. -/
def fmt_lens (headerLen : Nat) (italyBlocks europeBlocks remoteBlocks : List Nat)
    (footerLen : Nat) : List Nat :=
  let st0 : List Nat × Nat := ([], headerLen)
  let st1 := add_section_len st0 italia_header.length italyBlocks
  let st2 := add_section_len st1 europa_header.length europeBlocks
  let st3 := add_section_len st2 remote_header.length remoteBlocks
  let st4 :=
    if st3.2 + footerLen > MAX_MESSAGE_LENGTH then (st3.1 ++ [st3.2], footerLen)
    else (st3.1, st3.2 + footerLen)
  st4.1 ++ [st4.2]

/-- The chunk-bound invariant on a length-level state. -/
def LensOK (st : List Nat × Nat) : Prop :=
  (∀ m ∈ st.1, m ≤ MAX_MESSAGE_LENGTH) ∧ st.2 ≤ MAX_MESSAGE_LENGTH

/-- The string-level state corresponding to a piece-level state. -/
def pstate_to_fmt (st : PState) : FmtState :=
  ⟨st.messages.map render, render st.current⟩

/-- All record blocks held by a piece-level state, in order. -/
def pstate_blocks (st : PState) : List Job :=
  (st.messages.map chunk_blocks).join ++ chunk_blocks st.current

/-! Concrete records used by the spec's test vectors -/

/-- Geo vector 1: location `"Milano"`. -/
def job_milano : Job :=
  { title := "AI Engineer", company := "Acme", location := some "Milano",
    url := "https://jobs.example/1", source := "test" }

/-- Geo vector 2: location `"Berlin, Germany"`. -/
def job_berlin : Job :=
  { title := "Software Engineer", company := "Acme", location := some "Berlin, Germany",
    url := "https://jobs.example/2", source := "test" }

/-- Geo vector 3: location `"Remote"`, salary `"$120,000 USD"`. -/
def job_remote_usd : Job :=
  { title := "AI Engineer", company := "Acme", location := some "Remote",
    url := "https://jobs.example/3", source := "test", salary := some "$120,000 USD" }

/-- Geo vector 4: location `"Remote - Europe"`. -/
def job_remote_europe : Job :=
  { title := "AI Engineer", company := "Acme", location := some "Remote - Europe",
    url := "https://jobs.example/4", source := "test" }

/-- A record dated one hour before the Unix epoch. -/
def job_pre_epoch : Job :=
  { title := "Old Posting", company := "Acme", location := some "Paris",
    url := "https://jobs.example/old", source := "test",
    posted_date := some ⟨-3600, none⟩ }

/-- A record with no posting date. -/
def job_undated : Job :=
  { title := "Undated Posting", company := "Acme", location := some "Madrid",
    url := "https://jobs.example/undated", source := "test" }

/-- Ranking example, dated 2024-01-01 00:00:00 UTC (naive). -/
def job_jan : Job :=
  { title := "Jan Posting", company := "Acme", location := some "Paris",
    url := "https://jobs.example/jan", source := "test",
    posted_date := some ⟨1704067200, none⟩ }

/-- Ranking example, undated. -/
def job_mid : Job :=
  { title := "Mid Posting", company := "Acme", location := some "Paris",
    url := "https://jobs.example/mid", source := "test" }

/-- Ranking example, dated 2024-03-01 00:00:00 UTC (timezone-aware, UTC). -/
def job_mar : Job :=
  { title := "Mar Posting", company := "Acme", location := some "Paris",
    url := "https://jobs.example/mar", source := "test",
    posted_date := some ⟨1709251200, some 0⟩ }

/-- Chunking example: a record whose block is 3751 characters long. -/
def job_wide : Job :=
  { title := String.mk (List.replicate 3700 'a'), company := "c", location := some "x",
    url := "u", source := "test" }

/-- Chunking example: a record whose block is 251 characters long. -/
def job_narrow : Job :=
  { title := String.mk (List.replicate 200 'b'), company := "c", location := some "x",
    url := "v", source := "test" }

/-- Chunking counterexample: a record whose block is 4151 characters long,
more than one whole message budget. -/
def job_oversized : Job :=
  { title := String.mk (List.replicate 4100 'a'), company := "c", location := some "x",
    url := "w", source := "test" }

/-! Helper lemmas -/

/-- A location accepted by `is_european_location` is neither `None` nor
empty. -/
lemma european_not_falsy {loc : Option String} (h : is_european_location loc = true) :
    pyFalsy loc = false := by
  by_cases hf : pyFalsy loc
  · simp [is_european_location, hf] at h
  · simpa using hf

/-- Unrolling `send_loop`: the attempted indices are consecutive from the
start index, and the success flag is the running flag conjoined with every
outcome in the range. -/
lemma send_loop_eq (outcome : Nat → Bool) :
    ∀ (msgs : List String) (i : Nat) (success : Bool),
      send_loop outcome msgs i success
        = (List.range' i msgs.length, success && (List.range' i msgs.length).all outcome) := by
  intro msgs
  induction msgs with
  | nil => intro i success; simp [send_loop]
  | cons m rest ih =>
    intro i success
    simp only [send_loop, ih (i + 1), List.length_cons]
    rw [List.range'_succ]
    simp only [List.all_cons, Prod.mk.injEq, true_and]
    cases outcome i <;> cases success <;> simp

/-! Claims -/

/-- C2, counterexample.  The claim says `load_seen_jobs` never raises,
even for content that parses as JSON but does not have the expected record
shape.  A file whose content is the JSON text `[]` parses to a Python list;
`data.get("seen_ids", [])` then raises `AttributeError`, which the
`except (json.JSONDecodeError, IOError)` clause does not catch. -/
theorem C2_load_counterexample :
    load_seen_jobs (.jsonContent (.list [])) = .error .attributeError := rfl

/-- C2, amended.  `load_seen_jobs` returns the empty set and never
raises when the backing file is absent, unreadable, or not parseable as
JSON, and when it parses to a JSON object without a `seen_ids` entry; but
content that parses to a non-object raises `AttributeError`, and a
`seen_ids` value that is not iterable raises `TypeError` (a string
`seen_ids` yields its characters rather than the empty set). -/
theorem C2_load_amended :
    load_seen_jobs .absent = .ok [] ∧
    load_seen_jobs .unreadable = .ok [] ∧
    load_seen_jobs .invalidJson = .ok [] ∧
    load_seen_jobs (.jsonContent (.dict [("other", .int 1)])) = .ok [] ∧
    (∀ l : List PyVal, load_seen_jobs (.jsonContent (.list l)) = .error .attributeError) ∧
    (∀ s : String, load_seen_jobs (.jsonContent (.str s)) = .error .attributeError) ∧
    load_seen_jobs (.jsonContent (.dict [("seen_ids", .int 5)])) = .error .typeError ∧
    load_seen_jobs (.jsonContent (.dict [("seen_ids", .str "ab")]))
      = .ok [.str "a", .str "b"] := by
  refine ⟨rfl, rfl, rfl, rfl, fun l => rfl, fun s => rfl, rfl, rfl⟩

/-- C3, counterexample.  The claim says a write that fails partway
leaves the prior valid seen-set uncorrupted.  `save_seen_jobs` opens the
backing file with mode `"w"`, truncating it in place; a crash after the
`open` but before `json.dump` completes leaves unparseable content, so the
prior persisted set `{"a"}` is lost (a subsequent load yields the empty
set). -/
theorem C3_save_counterexample :
    load_seen_jobs (.jsonContent (save_payload ["a"] "2024-01-01T00:00:00"))
      = .ok [.str "a"] ∧
    load_seen_jobs
      (save_seen_jobs_file (.jsonContent (save_payload ["a"] "2024-01-01T00:00:00"))
        ["a", "b"] "2024-01-02T00:00:00" .afterOpen) = .ok [] := ⟨rfl, rfl⟩

/-- C3, amended.  `save_seen_jobs` is not atomic: it truncates the
backing file in place (no write-temp-then-replace), so a crash before the
`open` preserves the prior state but a crash after it leaves content that
is not a valid seen-set, losing the prior set.  A completed save does
record a `last_updated` timestamp alongside the identity set. -/
theorem C3_save_amended :
    (∀ (prior : SeenFileState) (ids : List String) (now : String),
        save_seen_jobs_file prior ids now .beforeOpen = prior) ∧
    (∀ (prior : SeenFileState) (ids : List String) (now : String),
        save_seen_jobs_file prior ids now .completed
          = .jsonContent (.dict [("seen_ids", .list (ids.map PyVal.str)),
              ("last_updated", .str now)])) ∧
    (∀ (prior : SeenFileState) (ids : List String) (now : String),
        load_seen_jobs (save_seen_jobs_file prior ids now .completed)
          = .ok (ids.map PyVal.str)) ∧
    (∀ (prior : SeenFileState) (ids : List String) (now : String),
        load_seen_jobs (save_seen_jobs_file prior ids now .afterOpen) = .ok []) := by
  refine ⟨fun _ _ _ => rfl, fun _ _ _ => rfl, ?_, fun _ _ _ => rfl⟩
  intro prior ids now
  simp only [save_seen_jobs_file, load_seen_jobs, save_payload, dictGet, List.find?,
    pySet]
  have hall : (ids.map PyVal.str).all hashable = true := by
    simp [List.all_eq_true, hashable]
  simp [hall]

/-- C8.  The chunk loop of `send_job_alert` attempts every chunk in
order — the attempted indices are exactly `0, 1, …, n-1` whatever the
outcomes were — and the returned flag is the conjunction of all outcomes:
`true` exactly when every chunk's send succeeded. -/
theorem C8_delivery_aggregation (outcome : Nat → Bool) (messages : List String) :
    send_job_alert_chunks outcome messages
      = (List.range messages.length, (List.range messages.length).all outcome) := by
  unfold send_job_alert_chunks
  rw [send_loop_eq outcome messages 0 true, List.range_eq_range']
  simp

/-- C9.  `collect_jobs` isolates adapter failures: the collected list
is the concatenation of the successful adapters' records, a failing adapter
contributes zero records and never aborts collection from the others
(deleting it from the sequence changes nothing), and every successful
adapter's records survive in place around it. -/
theorem C9_aggregator_isolation :
    (∀ results : List AdapterResult,
        collect_jobs results
          = (results.map (fun r => match r with | .ok js => js | .error _ => [])).join) ∧
    (∀ (xs ys : List AdapterResult) (e : String),
        collect_jobs (xs ++ Except.error e :: ys) = collect_jobs (xs ++ ys)) ∧
    (∀ (xs ys : List AdapterResult) (js : List Job),
        collect_jobs (xs ++ Except.ok js :: ys)
          = collect_jobs xs ++ js ++ collect_jobs ys) := by
  have hjoin : ∀ results : List AdapterResult,
      collect_jobs results
        = (results.map (fun r => match r with | .ok js => js | .error _ => [])).join := by
    intro results
    induction results with
    | nil => rfl
    | cons r rest ih => cases r <;> simp [collect_jobs, ih]
  have happ : ∀ xs ys : List AdapterResult,
      collect_jobs (xs ++ ys) = collect_jobs xs ++ collect_jobs ys := by
    intro xs ys
    induction xs with
    | nil => rfl
    | cons r rest ih => cases r <;> simp [collect_jobs, ih]
  refine ⟨hjoin, ?_, ?_⟩
  · intro xs ys e
    rw [happ, happ]
    simp [collect_jobs]
  · intro xs ys js
    rw [happ]
    simp [collect_jobs, List.append_assoc]

/-- C10.  `is_european_location` rejects a missing or empty location
outright, so `filter_european_jobs` never keeps a record whose location is
`None` or `""`, whatever its other fields say. -/
theorem C10_empty_location_excluded :
    is_european_location none = false ∧
    is_european_location (some "") = false ∧
    (∀ jobs : List Job,
        (filter_european_jobs jobs).all (fun j => !(pyFalsy j.location)) = true) := by
  refine ⟨rfl, rfl, ?_⟩
  intro jobs
  induction jobs with
  | nil => rfl
  | cons job rest ih =>
    by_cases he : is_european_location job.location
    · by_cases hn : is_non_eu_job job
      · simp [filter_european_jobs, he, hn, ih]
      · simp [filter_european_jobs, he, hn, ih, european_not_falsy he]
    · simp [filter_european_jobs, he, ih]

/-- C4.  The four geo vectors: `"Milano"` is classified home-country
(priority 0); `"Berlin, Germany"` passes the European filter and is
other-European (priority 1); `"Remote"` with salary `"$120,000 USD"` is
excluded by the USD/`$` indicator; `"Remote - Europe"` passes. -/
theorem C4_geo_vectors :
    get_location_priority job_milano = 0 ∧
    is_italian_location job_milano.location = true ∧
    filter_european_jobs [job_berlin] = [job_berlin] ∧
    get_location_priority job_berlin = 1 ∧
    filter_european_jobs [job_remote_usd] = [] ∧
    is_non_eu_job job_remote_usd = true ∧
    is_european_location job_remote_usd.location = true ∧
    filter_european_jobs [job_remote_europe] = [job_remote_europe] := by
  refine ⟨by decide, by decide, by decide, by decide, by decide, by decide, by decide, by decide⟩

/-- C1** (the code contradicts the claim).  `main` never consults or
updates the persisted seen-set: with a fixed upstream adapter output of one
Milano record and a fully successful first delivery, the first run delivers
the record and leaves the seen-jobs file untouched, and the second run
delivers the very same record again — one record, not zero. -/
theorem C1_seen_set_not_consulted :
    (main_run 0 [Except.ok [job_milano]] SeenFileState.absent true).1 = [job_milano] ∧
    (main_run 0 [Except.ok [job_milano]]
        (main_run 0 [Except.ok [job_milano]] SeenFileState.absent true).2 true).1
      = [job_milano] := by
  constructor <;> decide

/-- Every job surviving `dedupAux` has a url outside the incoming seen set. -/
lemma dedupAux_mem_urls {seen : List String} {jobs : List Job} {j : Job}
    (h : j ∈ dedupAux seen jobs) : j.url ∉ seen := by
  induction jobs generalizing seen with
  | nil => simp [dedupAux] at h
  | cons a rest ih =>
    by_cases ha : a.url ∈ seen
    · rw [dedupAux, if_pos ha] at h
      exact ih h
    · rw [dedupAux, if_neg ha] at h
      rcases List.mem_cons.mp h with rfl | hmem
      · exact ha
      · intro hj
        exact ih hmem (List.mem_cons_of_mem _ hj)

/-- Model of `dedupAux` output has pairwise distinct urls. -/
lemma dedupAux_pairwise (seen : List String) (jobs : List Job) :
    (dedupAux seen jobs).Pairwise (fun a b => a.url ≠ b.url) := by
  induction jobs generalizing seen with
  | nil => simp [dedupAux]
  | cons a rest ih =>
    by_cases ha : a.url ∈ seen
    · rw [dedupAux, if_pos ha]
      exact ih seen
    · rw [dedupAux, if_neg ha]
      refine List.Pairwise.cons ?_ (ih _)
      intro b hb heq
      exact dedupAux_mem_urls hb (heq ▸ List.mem_cons_self _ _)

/-- Model of `dedupAux` output is a sublist of its input: order is preserved. -/
lemma dedupAux_sublist (seen : List String) (jobs : List Job) :
    (dedupAux seen jobs).Sublist jobs := by
  induction jobs generalizing seen with
  | nil => simp [dedupAux]
  | cons a rest ih =>
    by_cases ha : a.url ∈ seen
    · rw [dedupAux, if_pos ha]
      exact (ih seen).cons a
    · rw [dedupAux, if_neg ha]
      exact (ih _).cons₂ a

/-- The survivors of `dedupAux` with a given url: none if the url was
already seen, else the first input record with that url. -/
lemma dedupAux_filter (seen : List String) (jobs : List Job) (u : String) :
    (dedupAux seen jobs).filter (fun j => j.url == u)
      = if u ∈ seen then [] else (jobs.filter (fun j => j.url == u)).take 1 := by
  induction jobs generalizing seen with
  | nil => simp [dedupAux]
  | cons a rest ih =>
    by_cases ha : a.url ∈ seen
    · rw [dedupAux, if_pos ha, ih]
      by_cases hu : u ∈ seen
      · simp [hu]
      · have hne : ¬(a.url == u) := by
          intro hbe
          exact hu (beq_iff_eq.mp hbe ▸ ha)
        simp [hu, List.filter_cons, hne]
    · rw [dedupAux, if_neg ha]
      by_cases hau : a.url = u
      · have hu : u ∉ seen := fun h => ha (hau ▸ h)
        have humem : u ∈ a.url :: seen := by
          rw [hau]
          exact List.mem_cons_self _ _
        rw [List.filter_cons_of_pos (by simp [hau]), ih, if_pos humem, if_neg hu,
          List.filter_cons_of_pos (by simp [hau])]
        simp
      · have hmem : (u ∈ a.url :: seen) ↔ u ∈ seen := by
          constructor
          · intro h
            rcases List.mem_cons.mp h with h1 | h2
            · exact absurd h1.symm hau
            · exact h2
          · exact List.mem_cons_of_mem _
        rw [List.filter_cons_of_neg (by simp [hau]), ih, if_congr hmem rfl rfl,
          List.filter_cons_of_neg (by simp [hau])]

/-- C7.  `deduplicate_jobs`: no two output records share a url; the
output preserves input order (it is a sublist of the input); and for every
url the survivors are exactly the first input record carrying it (so a url
present in the input has exactly one representative, the first, and an
absent url has none).  The function is a pure Lean function of the input
list, hence deterministic. -/
theorem C7_dedup_contract (jobs : List Job) :
    (deduplicate_jobs jobs).Pairwise (fun a b => a.url ≠ b.url) ∧
    (deduplicate_jobs jobs).Sublist jobs ∧
    ∀ u : String, (deduplicate_jobs jobs).filter (fun j => j.url == u)
        = (jobs.filter (fun j => j.url == u)).take 1 := by
  refine ⟨dedupAux_pairwise [] jobs, dedupAux_sublist [] jobs, fun u => ?_⟩
  rw [deduplicate_jobs, dedupAux_filter]
  simp

/-- The sort-key order is total. -/
instance (localOff : Int) : IsTotal Job (jobLe localOff) :=
  ⟨fun a b => by unfold jobLe keyLe; omega⟩

/-- The sort-key order is transitive. -/
instance (localOff : Int) : IsTrans Job (jobLe localOff) :=
  ⟨fun a b c => by unfold jobLe keyLe; omega⟩

/-- An undated job's date priority is `0`. -/
lemma sort_key_fst_of_undated {localOff : Int} {a : Job} (h : a.posted_date = none) :
    (get_sort_key localOff a).1 = 0 := by
  simp [get_sort_key, h]

/-- C5, counterexample.  The claim says every record lacking a date is
placed after all dated records.  An undated job's date priority is `0`, the
negated Unix timestamp of the epoch: a record dated one hour *before* the
epoch gets date priority `3600` and is sorted *after* an undated record
(both have location priority 1 here), so the undated record comes first. -/
theorem C5_ranking_counterexample :
    sorted_jobs 0 [job_pre_epoch, job_undated] = [job_undated, job_pre_epoch] ∧
    job_undated.posted_date = none ∧
    job_pre_epoch.posted_date = some ⟨-3600, none⟩ := by
  refine ⟨by decide, rfl, rfl⟩

/-- C5, amended.  `sorted(european_jobs, key=get_sort_key)` orders the
records by the composite key (negated normalized timestamp, location
priority) ascending — i.e. primarily by posting date descending, secondarily
by location priority home-country(0) < other-European(1) < remote(2) — and
is a permutation of its input.  Undated records get date key `0` (the
epoch), so they are placed after every record whose normalized posting
timestamp is positive (any date after 1970-01-01) but tie with records
dated exactly at the epoch and precede records dated before it.
Timezone-aware timestamps are normalized by dropping the offset
(`replace(tzinfo=None)`) before `timestamp()`, so aware and naive dates
compare by the same wall-clock rule, as in the example, where 2024-03-01 is
timezone-aware and 2024-01-01 naive: dates `[2024-01-01, none, 2024-03-01]`
sort to `[2024-03-01, 2024-01-01, none]`. -/
theorem C5_ranking_amended :
    (∀ (localOff : Int) (jobs : List Job),
        (sorted_jobs localOff jobs).Pairwise (jobLe localOff)) ∧
    (∀ (localOff : Int) (jobs : List Job), (sorted_jobs localOff jobs).Perm jobs) ∧
    (∀ (localOff : Int) (jobs : List Job),
        (sorted_jobs localOff jobs).Pairwise
          (fun a b => a.posted_date = none → 0 ≤ (get_sort_key localOff b).1)) ∧
    sorted_jobs 0 [job_jan, job_mid, job_mar] = [job_mar, job_jan, job_mid] := by
  have hsorted : ∀ (localOff : Int) (jobs : List Job),
      (sorted_jobs localOff jobs).Pairwise (jobLe localOff) :=
    fun localOff jobs => List.sorted_insertionSort (jobLe localOff) jobs
  refine ⟨hsorted, fun localOff jobs => List.perm_insertionSort _ jobs, ?_, by decide⟩
  intro localOff jobs
  refine (hsorted localOff jobs).imp ?_
  intro a b hab hnone
  have ha0 : (get_sort_key localOff a).1 = 0 := sort_key_fst_of_undated hnone
  rcases hab with hlt | ⟨heq, _⟩
  · omega
  · omega

/-- Model of `replace_char` is the identity when the pattern character is absent. -/
lemma replace_char_of_not_mem {c : Char} {rep : List Char} {l : List Char} (h : c ∉ l) :
    replace_char c rep l = l := by
  induction l with
  | nil => rfl
  | cons x xs ih =>
    have hx : ¬(x == c) = true := by
      intro hbe
      exact h (beq_iff_eq.mp hbe ▸ List.mem_cons_self x xs)
    rw [replace_char, if_neg hx, ih (fun hm => h (List.mem_cons_of_mem x hm))]

/-- Model of `_escape_markdown` is the identity on text without special characters. -/
lemma escape_markdown_of_no_special {s : String} (h : ∀ c ∈ special_chars, c ∉ s.data) :
    escape_markdown s = s := by
  unfold escape_markdown
  by_cases he : s.isEmpty
  · rw [if_pos he]
    exact ((String.isEmpty_iff s).mp he).symm
  · rw [if_neg he]
    simp only [special_chars, List.foldl_cons, List.foldl_nil]
    rw [replace_char_of_not_mem (h '_' (by decide)),
      replace_char_of_not_mem (h '*' (by decide)),
      replace_char_of_not_mem (h '[' (by decide)),
      replace_char_of_not_mem (h ']' (by decide)),
      replace_char_of_not_mem (h (Char.ofNat 96) (by decide))]

/-- Model of `_escape_url` is the identity on urls without parentheses. -/
lemma escape_url_of_no_paren {s : String} (h1 : '(' ∉ s.data) (h2 : ')' ∉ s.data) :
    escape_url s = s := by
  unfold escape_url
  by_cases he : s.isEmpty
  · rw [if_pos he]
    exact ((String.isEmpty_iff s).mp he).symm
  · rw [if_neg he, replace_char_of_not_mem h1, replace_char_of_not_mem h2]

/-- No special character occurs in a replicated run of `'a'` or `'b'`. -/
lemma no_special_in_replicate {n : Nat} {a : Char} (ha : a = 'a' ∨ a = 'b') :
    ∀ c ∈ special_chars, c ∉ List.replicate n a := by
  intro c hc hmem
  have hca : c = a := (List.mem_replicate.mp hmem).2
  subst hca
  rcases ha with rfl | rfl <;> revert hc <;> decide

/-- The block length of a no-salary job with a replicated one-letter title
and one-character plain company/location/url fields: 48 overhead plus the
title, plus three. -/
lemma format_job_replicate_length (n : Nat) (a : Char) (ha : a = 'a' ∨ a = 'b')
    (co lo u : String)
    (hco : escape_markdown co = co) (hco1 : co.length = 1)
    (hlo : escape_markdown lo = lo) (hlo1 : lo.length = 1)
    (hu : escape_url u = u) (hu1 : u.length = 1)
    (src : String) :
    (format_job ⟨String.mk (List.replicate n a), co, some lo, u, src, "", none, none⟩).length
      = 51 + n := by
  have htitle : escape_markdown (String.mk (List.replicate n a)) = String.mk (List.replicate n a) :=
    escape_markdown_of_no_special (no_special_in_replicate ha)
  have hcone : co.isEmpty = false := by
    rw [Bool.eq_false_iff]
    intro h
    rw [(String.isEmpty_iff co).mp h] at hco1
    exact absurd hco1 (by decide)
  have hlone : pyFalsy (some lo) = false := by
    show lo.isEmpty = false
    rw [Bool.eq_false_iff]
    intro h
    rw [(String.isEmpty_iff lo).mp h] at hlo1
    exact absurd hlo1 (by decide)
  have l1 : ("💼 *" : String).length = 3 := by decide
  have l2 : ("*\n" : String).length = 2 := by decide
  have l3 : ("🏢 " : String).length = 2 := by decide
  have l4 : ("\n" : String).length = 1 := by decide
  have l5 : ("📍 " : String).length = 2 := by decide
  have l6 : ("💰 Da concordare\n" : String).length = 16 := by decide
  have l7 : ("🔗 [Candidati qui](" : String).length = 18 := by decide
  have l8 : (")\n\n" : String).length = 3 := by decide
  have ltitle : (String.mk (List.replicate n a)).length = n := by
    show (List.replicate n a).length = n
    exact List.length_replicate n a
  simp only [format_job, htitle, hcone, hlone, Bool.false_eq_true, if_false, orEmpty, hco, hlo,
    hu, String.length_append, l1, l2, l3, l4, l5, l6, l7, l8, ltitle, hco1, hlo1, hu1]
  omega

/-- Block length of `job_wide`. -/
lemma job_wide_block : (format_job job_wide).length = 3751 := by
  have h := format_job_replicate_length 3700 'a' (Or.inl rfl) "c" "x" "u"
    (by decide) (by decide) (by decide) (by decide) (by decide) (by decide) "test"
  simpa [job_wide] using h

/-- Block length of `job_narrow`. -/
lemma job_narrow_block : (format_job job_narrow).length = 251 := by
  have h := format_job_replicate_length 200 'b' (Or.inr rfl) "c" "x" "v"
    (by decide) (by decide) (by decide) (by decide) (by decide) (by decide) "test"
  simpa [job_narrow] using h

/-- Block length of `job_oversized`. -/
lemma job_oversized_block : (format_job job_oversized).length = 4151 := by
  have h := format_job_replicate_length 4100 'a' (Or.inl rfl) "c" "x" "w"
    (by decide) (by decide) (by decide) (by decide) (by decide) (by decide) "test"
  simpa [job_oversized] using h

/-- Model of `add_job` commutes with taking lengths. -/
lemma add_job_lens (st : FmtState) (j : Job) :
    fmt_state_lens (add_job st j) = add_job_len (fmt_state_lens st) (format_job j).length := by
  unfold add_job add_job_len fmt_state_lens
  by_cases h : st.current.length + (format_job j).length > MAX_MESSAGE_LENGTH - 100
  · simp [h, String.length_append]
  · simp [h, String.length_append]

/-- The job fold commutes with taking lengths. -/
lemma foldl_add_job_lens (js : List Job) :
    ∀ st : FmtState, fmt_state_lens (js.foldl add_job st)
      = (js.map (fun j => (format_job j).length)).foldl add_job_len (fmt_state_lens st) := by
  induction js with
  | nil => intro st; rfl
  | cons j rest ih =>
    intro st
    simp only [List.foldl_cons, List.map_cons, ih (add_job st j), add_job_lens]

/-- Model of `add_section` commutes with taking lengths. -/
lemma add_section_lens (st : FmtState) (sh : String) (js : List Job) :
    fmt_state_lens (add_section st sh js)
      = add_section_len (fmt_state_lens st) sh.length
          (js.map (fun j => (format_job j).length)) := by
  cases js with
  | nil => rfl
  | cons j rest =>
    unfold add_section add_section_len
    simp only [List.isEmpty_cons, Bool.false_eq_true, if_false, List.map_eq_nil_iff]
    rw [foldl_add_job_lens]
    congr 1
    by_cases h : st.current.length + sh.length > MAX_MESSAGE_LENGTH - 200
    · rw [if_pos h, if_pos (by simpa [fmt_state_lens] using h)]
      simp [fmt_state_lens, String.length_append]
    · rw [if_neg h, if_neg (by simpa [fmt_state_lens] using h)]
      simp [fmt_state_lens, String.length_append]

/-- The message lengths produced by `_format_jobs_messages` are a function
of the header length, the per-section block lengths and the footer length. -/
lemma format_jobs_messages_lengths (today : String) (jobs : List Job) :
    (format_jobs_messages today jobs).map String.length
      = fmt_lens ("🔔 *AI Job Alert* | " ++ today ++ "\n\n").length
          ((group_region .italy jobs).map (fun j => (format_job j).length))
          ((group_region .europe jobs).map (fun j => (format_job j).length))
          ((group_region .remote jobs).map (fun j => (format_job j).length))
          (footer_text jobs.length).length := by
  have hlens : fmt_state_lens
      (add_section (add_section (add_section ⟨[], "🔔 *AI Job Alert* | " ++ today ++ "\n\n"⟩
          italia_header (group_region .italy jobs))
          europa_header (group_region .europe jobs))
          remote_header (group_region .remote jobs))
      = add_section_len (add_section_len (add_section_len
          (([] : List Nat), ("🔔 *AI Job Alert* | " ++ today ++ "\n\n").length)
          italia_header.length ((group_region .italy jobs).map (fun j => (format_job j).length)))
          europa_header.length ((group_region .europe jobs).map (fun j => (format_job j).length)))
          remote_header.length ((group_region .remote jobs).map (fun j => (format_job j).length)) := by
    rw [add_section_lens, add_section_lens, add_section_lens]
    rfl
  simp only [format_jobs_messages, fmt_lens]
  rw [← hlens]
  simp only [fmt_state_lens]
  by_cases h : (add_section (add_section (add_section
        ⟨[], "🔔 *AI Job Alert* | " ++ today ++ "\n\n"⟩
        italia_header (group_region .italy jobs))
        europa_header (group_region .europe jobs))
        remote_header (group_region .remote jobs)).current.length
      + (footer_text jobs.length).length > MAX_MESSAGE_LENGTH
  · rw [if_pos h, if_pos h]
    simp [List.map_append]
  · rw [if_neg h, if_neg h]
    simp [List.map_append, String.length_append]

/-- The continuation header is 29 characters. -/
lemma cont_header_length : cont_header.length = 29 := by decide

/-- The `ITALIA` section header is 51 characters. -/
lemma italia_header_length : italia_header.length = 51 := by decide

/-- The `EUROPA` section header is 51 characters. -/
lemma europa_header_length : europa_header.length = 51 := by decide

/-- The `REMOTE` section header is 50 characters. -/
lemma remote_header_length : remote_header.length = 50 := by decide

/-- Model of `add_job_len` keeps every chunk within the budget as long as the block
is no longer than `4096 - 29` (message cap minus continuation header). -/
lemma add_job_len_ok {st : List Nat × Nat} {bl : Nat} (hb : bl ≤ 4067) (h : LensOK st) :
    LensOK (add_job_len st bl) := by
  unfold add_job_len
  by_cases hc : st.2 + bl > MAX_MESSAGE_LENGTH - 100
  · rw [if_pos hc]
    refine ⟨?_, ?_⟩
    · intro m hm
      rcases List.mem_append.mp hm with hm | hm
      · exact h.1 m hm
      · rw [List.mem_singleton.mp hm]
        exact h.2
    · show cont_header.length + bl ≤ MAX_MESSAGE_LENGTH
      rw [cont_header_length]
      simp only [MAX_MESSAGE_LENGTH]
      omega
  · rw [if_neg hc]
    refine ⟨h.1, ?_⟩
    show st.2 + bl ≤ MAX_MESSAGE_LENGTH
    simp only [MAX_MESSAGE_LENGTH] at hc ⊢
    omega

/-- Folding `add_job_len` over bounded blocks preserves the invariant. -/
lemma foldl_add_job_len_ok {bls : List Nat} (hb : ∀ b ∈ bls, b ≤ 4067) :
    ∀ {st : List Nat × Nat}, LensOK st → LensOK (bls.foldl add_job_len st) := by
  induction bls with
  | nil => intro st h; exact h
  | cons b rest ih =>
    intro st h
    exact ih (fun x hx => hb x (List.mem_cons_of_mem _ hx))
      (add_job_len_ok (hb b (List.mem_cons_self _ _)) h)

/-- Model of `add_section_len` preserves the invariant for the repository's section
headers (≤ 51 characters) and bounded blocks. -/
lemma add_section_len_ok {st : List Nat × Nat} {shLen : Nat} {bls : List Nat}
    (hs : shLen ≤ 51) (hb : ∀ b ∈ bls, b ≤ 4067) (h : LensOK st) :
    LensOK (add_section_len st shLen bls) := by
  unfold add_section_len
  by_cases he : bls.isEmpty
  · rw [if_pos he]
    exact h
  · rw [if_neg he]
    apply foldl_add_job_len_ok hb
    by_cases hc : st.2 + shLen > MAX_MESSAGE_LENGTH - 200
    · rw [if_pos hc]
      refine ⟨?_, ?_⟩
      · intro m hm
        rcases List.mem_append.mp hm with hm | hm
        · exact h.1 m hm
        · rw [List.mem_singleton.mp hm]
          exact h.2
      · show cont_header.length + shLen ≤ MAX_MESSAGE_LENGTH
        rw [cont_header_length]
        simp only [MAX_MESSAGE_LENGTH]
        omega
    · rw [if_neg hc]
      refine ⟨h.1, ?_⟩
      show st.2 + shLen ≤ MAX_MESSAGE_LENGTH
      simp only [MAX_MESSAGE_LENGTH] at hc ⊢
      omega

/-- Every output of the length-level chunker stays within the message cap,
given a header and footer within the cap and blocks of at most 4067. -/
lemma fmt_lens_bound {headerLen footerLen : Nat} {italy europe remote : List Nat}
    (hh : headerLen ≤ MAX_MESSAGE_LENGTH) (hf : footerLen ≤ MAX_MESSAGE_LENGTH)
    (hi : ∀ b ∈ italy, b ≤ 4067) (he : ∀ b ∈ europe, b ≤ 4067)
    (hr : ∀ b ∈ remote, b ≤ 4067) :
    ∀ m ∈ fmt_lens headerLen italy europe remote footerLen, m ≤ MAX_MESSAGE_LENGTH := by
  have h0 : LensOK (([] : List Nat), headerLen) := ⟨by simp, hh⟩
  have h1 : LensOK (add_section_len (([] : List Nat), headerLen)
      italia_header.length italy) :=
    add_section_len_ok italia_header_length.le hi h0
  have h2 : LensOK (add_section_len (add_section_len (([] : List Nat), headerLen)
      italia_header.length italy) europa_header.length europe) :=
    add_section_len_ok europa_header_length.le he h1
  have h3 : LensOK (add_section_len (add_section_len (add_section_len
      (([] : List Nat), headerLen) italia_header.length italy)
      europa_header.length europe) remote_header.length remote) :=
    add_section_len_ok (by rw [remote_header_length]; omega) hr h2
  simp only [fmt_lens]
  set st3 := add_section_len (add_section_len (add_section_len (([] : List Nat), headerLen)
      italia_header.length italy) europa_header.length europe) remote_header.length remote
    with hst3
  intro m hm
  by_cases hc : st3.2 + footerLen > MAX_MESSAGE_LENGTH
  · rw [if_pos hc] at hm
    rcases List.mem_append.mp hm with hm | hm
    · rcases List.mem_append.mp hm with hm | hm
      · exact h3.1 m hm
      · rw [List.mem_singleton.mp hm]
        exact h3.2
    · rw [List.mem_singleton.mp hm]
      exact hf
  · rw [if_neg hc] at hm
    rcases List.mem_append.mp hm with hm | hm
    · exact h3.1 m hm
    · rw [List.mem_singleton.mp hm]
      simp only [MAX_MESSAGE_LENGTH] at hc ⊢
      omega

/-- Footer length: 46 characters plus the decimal numeral of the count. -/
lemma footer_text_length (n : Nat) :
    (footer_text n).length = 46 + (Nat.repr n).length := by
  unfold footer_text
  rw [String.length_append, String.length_append]
  have l1 : ("\n──────────────────\n📊 *Trovati " : String).length = 31 := by decide
  have l2 : (" nuovi annunci*" : String).length = 15 := by decide
  omega

/-- The footer fits in one message for any record count below `10 ^ 4050`. -/
lemma footer_text_le {n : Nat} (hn : n < 10 ^ 4050) :
    (footer_text n).length ≤ MAX_MESSAGE_LENGTH := by
  have hr := Nat.repr_length n 4050 (by norm_num) hn
  rw [footer_text_length]
  simp only [MAX_MESSAGE_LENGTH]
  omega

/-- The header fits in one message for any date string of at most 20
characters. -/
lemma header_text_le {today : String} (ht : today.length ≤ 20) :
    ("🔔 *AI Job Alert* | " ++ today ++ "\n\n").length ≤ MAX_MESSAGE_LENGTH := by
  rw [String.length_append, String.length_append]
  have l1 : ("🔔 *AI Job Alert* | " : String).length = 19 := by decide
  have l2 : ("\n\n" : String).length = 2 := by decide
  simp only [MAX_MESSAGE_LENGTH]
  omega

/-- Rendering distributes over piece-list concatenation. -/
lemma render_append (a b : List Piece) : render (a ++ b) = render a ++ render b := by
  induction a with
  | nil =>
    show render b = "" ++ render b
    rw [String.empty_append]
  | cons p ps ih =>
    show piece_str p ++ render (ps ++ b) = (piece_str p ++ render ps) ++ render b
    rw [ih, String.append_assoc]

/-- Model of `add_job_p` renders to `add_job`. -/
lemma add_job_p_agree (st : PState) (j : Job) :
    pstate_to_fmt (add_job_p st j) = add_job (pstate_to_fmt st) j := by
  unfold add_job_p add_job pstate_to_fmt
  by_cases h : (render st.current).length + (format_job j).length > MAX_MESSAGE_LENGTH - 100
  · simp only [h, if_true, if_pos h]
    simp [render, piece_str, render_append, String.append_empty, List.map_append]
  · simp only [h, if_false, if_neg h]
    simp [render, piece_str, render_append, String.append_empty]

/-- The job fold renders to the string-level job fold. -/
lemma foldl_add_job_p_agree (js : List Job) :
    ∀ st : PState, pstate_to_fmt (js.foldl add_job_p st) = js.foldl add_job (pstate_to_fmt st) := by
  induction js with
  | nil => intro st; rfl
  | cons j rest ih =>
    intro st
    simp only [List.foldl_cons, ih, add_job_p_agree]

/-- Model of `add_section_p` renders to `add_section`. -/
lemma add_section_p_agree (st : PState) (sh : String) (js : List Job) :
    pstate_to_fmt (add_section_p st sh js) = add_section (pstate_to_fmt st) sh js := by
  cases js with
  | nil => rfl
  | cons j rest =>
    unfold add_section_p add_section
    simp only [List.isEmpty_cons, Bool.false_eq_true, if_false]
    rw [foldl_add_job_p_agree]
    congr 1
    by_cases h : (render st.current).length + sh.length > MAX_MESSAGE_LENGTH - 200
    · rw [if_pos h, if_pos (by simpa [pstate_to_fmt] using h)]
      simp [pstate_to_fmt, render, piece_str, render_append, String.append_empty, List.map_append]
    · rw [if_neg h, if_neg (by simpa [pstate_to_fmt] using h)]
      simp [pstate_to_fmt, render, piece_str, render_append, String.append_empty]

/-- The string-level formatter is the rendering of the piece-level one:
every chunk is the concatenation of whole pieces. -/
lemma format_jobs_messages_agree (today : String) (jobs : List Job) :
    format_jobs_messages today jobs = (format_jobs_pieces today jobs).map render := by
  have h0 : pstate_to_fmt ⟨[], [Piece.text ("🔔 *AI Job Alert* | " ++ today ++ "\n\n")]⟩
      = FmtState.mk [] ("🔔 *AI Job Alert* | " ++ today ++ "\n\n") := by
    simp [pstate_to_fmt, render, piece_str, String.append_empty]
  have hagree : pstate_to_fmt (add_section_p (add_section_p (add_section_p
        ⟨[], [Piece.text ("🔔 *AI Job Alert* | " ++ today ++ "\n\n")]⟩
        italia_header (group_region .italy jobs))
        europa_header (group_region .europe jobs))
        remote_header (group_region .remote jobs))
      = add_section (add_section (add_section
          (FmtState.mk [] ("🔔 *AI Job Alert* | " ++ today ++ "\n\n"))
          italia_header (group_region .italy jobs))
          europa_header (group_region .europe jobs))
          remote_header (group_region .remote jobs) := by
    rw [add_section_p_agree, add_section_p_agree, add_section_p_agree, h0]
  simp only [format_jobs_messages, format_jobs_pieces]
  rw [← hagree]
  simp only [pstate_to_fmt]
  by_cases h : (render (add_section_p (add_section_p (add_section_p
        ⟨[], [Piece.text ("🔔 *AI Job Alert* | " ++ today ++ "\n\n")]⟩
        italia_header (group_region .italy jobs))
        europa_header (group_region .europe jobs))
        remote_header (group_region .remote jobs)).current).length
      + (footer_text jobs.length).length > MAX_MESSAGE_LENGTH
  · rw [if_pos h, if_pos h]
    simp [render, piece_str, render_append, String.append_empty, List.map_append]
  · rw [if_neg h, if_neg h]
    simp [render, piece_str, render_append, String.append_empty, List.map_append]

/-- Model of `chunk_blocks` distributes over concatenation. -/
lemma chunk_blocks_append (a b : List Piece) :
    chunk_blocks (a ++ b) = chunk_blocks a ++ chunk_blocks b := by
  unfold chunk_blocks
  exact List.filterMap_append a b _

/-- Model of `add_job_p` appends exactly the new job's block. -/
lemma add_job_p_blocks (st : PState) (j : Job) :
    pstate_blocks (add_job_p st j) = pstate_blocks st ++ [j] := by
  unfold add_job_p pstate_blocks
  by_cases h : (render st.current).length + (format_job j).length > MAX_MESSAGE_LENGTH - 100
  · rw [if_pos h]
    simp [chunk_blocks, List.map_append, List.filterMap]
  · rw [if_neg h]
    simp [chunk_blocks_append, chunk_blocks, List.filterMap]

/-- The job fold appends exactly the folded jobs' blocks, in order. -/
lemma foldl_add_job_p_blocks (js : List Job) :
    ∀ st : PState, pstate_blocks (js.foldl add_job_p st) = pstate_blocks st ++ js := by
  induction js with
  | nil => intro st; simp
  | cons j rest ih =>
    intro st
    simp [List.foldl_cons, ih, add_job_p_blocks, List.append_assoc]

/-- A section contributes exactly its jobs' blocks, in order. -/
lemma add_section_p_blocks (st : PState) (sh : String) (js : List Job) :
    pstate_blocks (add_section_p st sh js) = pstate_blocks st ++ js := by
  cases js with
  | nil => simp [add_section_p]
  | cons j rest =>
    unfold add_section_p
    simp only [List.isEmpty_cons, Bool.false_eq_true, if_false]
    rw [foldl_add_job_p_blocks]
    congr 1
    by_cases h : (render st.current).length + sh.length > MAX_MESSAGE_LENGTH - 200
    · rw [if_pos h]
      simp [pstate_blocks, chunk_blocks_append, chunk_blocks, List.map_append, List.filterMap]
    · rw [if_neg h]
      simp [pstate_blocks, chunk_blocks_append, chunk_blocks, List.filterMap]

/-- No record's block is ever split: across all chunks, the blocks are
exactly the section-ordered input records, each appearing once, whole, in a
single chunk. -/
lemma format_jobs_pieces_blocks (today : String) (jobs : List Job) :
    ((format_jobs_pieces today jobs).map chunk_blocks).join
      = group_region .italy jobs ++ group_region .europe jobs ++ group_region .remote jobs := by
  simp only [format_jobs_pieces]
  have hfin : ∀ st : PState, ((st.messages ++ [st.current]).map chunk_blocks).join
      = pstate_blocks st := by
    intro st
    simp [pstate_blocks, List.map_append]
  by_cases h : (render (add_section_p (add_section_p (add_section_p
        ⟨[], [Piece.text ("🔔 *AI Job Alert* | " ++ today ++ "\n\n")]⟩
        italia_header (group_region .italy jobs))
        europa_header (group_region .europe jobs))
        remote_header (group_region .remote jobs)).current).length
      + (footer_text jobs.length).length > MAX_MESSAGE_LENGTH
  · rw [if_pos h, hfin]
    rw [show ∀ (a : List (List Piece)) (c : List Piece) (f : List Piece),
        pstate_blocks ⟨a ++ [c], f⟩ = (a.map chunk_blocks).join ++ chunk_blocks c
          ++ chunk_blocks f from fun a c f => by simp [pstate_blocks, List.map_append]]
    rw [show chunk_blocks [Piece.text (footer_text jobs.length)] = [] from rfl]
    rw [show ∀ (a : List (List Piece)) (c : List Piece),
        (a.map chunk_blocks).join ++ chunk_blocks c = pstate_blocks ⟨a, c⟩ from
        fun a c => rfl]
    rw [add_section_p_blocks, add_section_p_blocks, add_section_p_blocks]
    simp [pstate_blocks, chunk_blocks, List.filterMap, List.append_assoc]
  · rw [if_neg h, hfin]
    rw [show ∀ (a : List (List Piece)) (c : List Piece) (f : List Piece),
        pstate_blocks ⟨a, c ++ f⟩ = (a.map chunk_blocks).join ++ chunk_blocks c
          ++ chunk_blocks f from fun a c f => by
        simp [pstate_blocks, chunk_blocks_append, List.append_assoc]]
    rw [show chunk_blocks [Piece.text (footer_text jobs.length)] = [] from rfl]
    rw [show ∀ (a : List (List Piece)) (c : List Piece),
        (a.map chunk_blocks).join ++ chunk_blocks c = pstate_blocks ⟨a, c⟩ from
        fun a c => rfl]
    rw [add_section_p_blocks, add_section_p_blocks, add_section_p_blocks]
    simp [pstate_blocks, chunk_blocks, List.filterMap, List.append_assoc]

/-- Model of `group_region` on the two-record chunking example. -/
lemma group_wide_narrow_italy : group_region .italy [job_wide, job_narrow] = [] := by
  rw [group_region, List.filter_cons_of_neg (by decide), List.filter_cons_of_neg (by decide),
    List.filter_nil]

/-- Both example records are other-European. -/
lemma group_wide_narrow_europe :
    group_region .europe [job_wide, job_narrow] = [job_wide, job_narrow] := by
  rw [group_region, List.filter_cons_of_pos (by decide), List.filter_cons_of_pos (by decide),
    List.filter_nil]

/-- Neither example record is remote. -/
lemma group_wide_narrow_remote : group_region .remote [job_wide, job_narrow] = [] := by
  rw [group_region, List.filter_cons_of_neg (by decide), List.filter_cons_of_neg (by decide),
    List.filter_nil]

/-- The just-over-budget example: blocks of 3751 and 251 characters (sum
4002, just over the `4096 - 100` budget) produce exactly the chunk lengths
`[3834, 327]` — two chunks. -/
lemma example_chunk_lengths :
    (format_jobs_messages "09 Oct 2025" [job_wide, job_narrow]).map String.length
      = [3834, 327] := by
  rw [format_jobs_messages_lengths, group_wide_narrow_italy, group_wide_narrow_europe,
    group_wide_narrow_remote]
  simp only [List.map_cons, List.map_nil, job_wide_block, job_narrow_block]
  rw [show ([job_wide, job_narrow] : List Job).length = 2 from rfl]
  decide

/-- C6, counterexample.  The claim says no chunk ever exceeds the fixed
maximum chunk size.  A single record whose formatted block is 4151
characters (title of 4100 `a`s) yields a chunk of 4180 characters — the
continuation header plus the whole block — exceeding
`MAX_MESSAGE_LENGTH = 4096`, because the chunker starts a fresh chunk with
the oversized block rather than (being unable to) split it. -/
theorem C6_chunking_counterexample :
    ∃ m ∈ format_jobs_messages "09 Oct 2025" [job_oversized],
      MAX_MESSAGE_LENGTH < m.length := by
  have hmap : (format_jobs_messages "09 Oct 2025" [job_oversized]).map String.length
      = [83, 4180, 47] := by
    rw [format_jobs_messages_lengths]
    rw [show group_region .italy [job_oversized] = [] from by
      rw [group_region, List.filter_cons_of_neg (by decide), List.filter_nil]]
    rw [show group_region .europe [job_oversized] = [job_oversized] from by
      rw [group_region, List.filter_cons_of_pos (by decide), List.filter_nil]]
    rw [show group_region .remote [job_oversized] = [] from by
      rw [group_region, List.filter_cons_of_neg (by decide), List.filter_nil]]
    simp only [List.map_cons, List.map_nil, job_oversized_block]
    rw [show ([job_oversized] : List Job).length = 1 from rfl]
    decide
  have h4180 : (4180 : Nat)
      ∈ (format_jobs_messages "09 Oct 2025" [job_oversized]).map String.length := by
    rw [hmap]
    simp
  rcases List.mem_map.mp h4180 with ⟨m, hm, hlen⟩
  exact ⟨m, hm, by rw [hlen]; decide⟩

/-- C6, amended.  Provided every record's formatted block fits in a
fresh chunk (at most `4096 - 29 = 4067` characters, the cap minus the
continuation header), the date string is at most 20 characters, and the
record count's numeral fits the footer (fewer than `10 ^ 4050` records):
no chunk exceeds `MAX_MESSAGE_LENGTH = 4096`.  Unconditionally, every chunk
is a concatenation of whole pieces (headers and record blocks) and the
record blocks across all chunks are exactly the section-ordered records,
each whole in a single chunk — a block is never split.  The spec's
just-over-budget example (blocks 3751 + 251 = 4002 > 3996) yields exactly
2 chunks, of 3834 and 327 characters, both within the cap. -/
theorem C6_chunking_amended :
    (∀ (today : String) (jobs : List Job),
        today.length ≤ 20 → jobs.length < 10 ^ 4050 →
        (∀ j ∈ jobs, (format_job j).length ≤ 4067) →
        List.Forall (fun m => m.length ≤ MAX_MESSAGE_LENGTH)
          (format_jobs_messages today jobs)) ∧
    (∀ (today : String) (jobs : List Job),
        format_jobs_messages today jobs = (format_jobs_pieces today jobs).map render) ∧
    (∀ (today : String) (jobs : List Job),
        ((format_jobs_pieces today jobs).map chunk_blocks).join
          = group_region .italy jobs ++ group_region .europe jobs
            ++ group_region .remote jobs) ∧
    (format_jobs_messages "09 Oct 2025" [job_wide, job_narrow]).map String.length
      = [3834, 327] := by
  refine ⟨?_, format_jobs_messages_agree, format_jobs_pieces_blocks, example_chunk_lengths⟩
  intro today jobs ht hn hb
  rw [List.forall_iff_forall_mem]
  intro m hm
  have hlen : m.length ∈ (format_jobs_messages today jobs).map String.length :=
    List.mem_map_of_mem _ hm
  rw [format_jobs_messages_lengths] at hlen
  refine fmt_lens_bound (header_text_le ht) (footer_text_le hn) ?_ ?_ ?_ _ hlen
  all_goals
    intro b hbm
    rcases List.mem_map.mp hbm with ⟨j, hj, rfl⟩
    exact hb j (List.mem_of_mem_filter hj)

/-- C6, witness.  The amended bound applied to a concrete run: one
Milano record on 09 Oct 2025, with all hypotheses discharged by
computation. -/
theorem C6_chunking_witness :
    List.Forall (fun m => m.length ≤ MAX_MESSAGE_LENGTH)
      (format_jobs_messages "09 Oct 2025" [job_milano]) :=
  C6_chunking_amended.1 "09 Oct 2025" [job_milano] (by decide) (by norm_num) (by decide)

end JobAlerts
